import Mathlib

/-!
Verification of the coverage-report analyzer (parser, prioritizer,
closure predictor) against its design document.

The Python source is embedded shallowly: strings are `List Char`,
dictionaries are records of the fields the code reads, Python `float`s
are modelled as exact rationals (`Rat`), and the mutable single-pass
parser loop is explicit state passing.  Each regular expression of the
parser is implemented as a dedicated search function whose doc comment
names the pattern it implements; `re.search` semantics (leftmost start,
greedy and lazy repetition with backtracking) are reproduced exactly for
these patterns.
-/

namespace CoverageAnalyzer

/-! ## Character classes (ASCII model of Python `re` classes) -/

/-- ASCII model of the regex class of whitespace (Python re). -/
def isSpaceChar (c : Char) : Bool :=
  c = ' ' || c = '\t' || c = '\n' || c = '\r' || c = '\x0b' || c = '\x0c'

/-- The regex digit class. -/
def isDigitChar (c : Char) : Bool := '0' ≤ c && c ≤ '9'

/-- ASCII model of the regex word-character class. -/
def isWordChar (c : Char) : Bool :=
  isDigitChar c || ('a' ≤ c && c ≤ 'z') || ('A' ≤ c && c ≤ 'Z') || c = '_'

/-! ## List-of-characters helpers -/

/-- Greedy consumption of a run of whitespace (a deterministic
occurrence of a spaces-then-delimiter pattern piece). -/
def skipSpaces (cs : List Char) : List Char := cs.dropWhile isSpaceChar

/-- Expect one literal character. -/
def expectChar (c : Char) : List Char → Option (List Char)
  | [] => none
  | d :: ds => if d = c then some ds else none

/-- Case-insensitive literal keyword match (re.IGNORECASE, ASCII). -/
def matchCI : List Char → List Char → Option (List Char)
  | [], cs => some cs
  | _ :: _, [] => none
  | k :: ks, c :: cs => if k.toLower = c.toLower then matchCI ks cs else none

/-- Case-sensitive "starts with" test. -/
def startsWithList : List Char → List Char → Bool
  | [], _ => true
  | _ :: _, [] => false
  | p :: ps, c :: cs => p = c && startsWithList ps cs

/-- Case-sensitive substring test (Python's `in` operator on strings). -/
def listHasSub (pat : List Char) : List Char → Bool
  | [] => pat.isEmpty
  | c :: cs => startsWithList pat (c :: cs) || listHasSub pat cs

/-- Value of a digit run (the regex guarantees the run is all digits,
so Python's `int(...)` conversion cannot fail). -/
def natOfDigits (ds : List Char) : Nat :=
  ds.foldl (fun n c => 10 * n + (c.toNat - 48)) 0

/-- Python `str.strip()` (ASCII whitespace model). -/
def pyStrip (cs : List Char) : List Char :=
  ((cs.dropWhile isSpaceChar).reverse.dropWhile isSpaceChar).reverse

/-! ## The individual regex patterns of `CoverageReportParser.__init__` -/

/-- The tail piece of a key-value pattern after its keyword and colon:
a greedy whitespace run followed by a greedy nonempty `.+` capture
(`.` matches anything but a newline; the whitespace run backtracks when
everything after the colon is whitespace). -/
def dotPlusCapture (rest : List Char) : Option (List Char) :=
  let m := (rest.takeWhile isSpaceChar).length
  match rest.drop m with
  | [] =>
    match rest.reverse.dropWhile (fun c => c = '\n') with
    | [] => none
    | c :: _ => some [c]
  | c :: cs => some ((c :: cs).takeWhile (fun d => d ≠ '\n'))

/-- One anchored attempt of a pattern of the shape
keyword, optional spaces, colon, then the `dotPlusCapture` tail. -/
def kvHere (kw : List Char) (cs : List Char) : Option (List Char) := do
  let cs ← matchCI kw cs
  let cs ← expectChar ':' (skipSpaces cs)
  dotPlusCapture cs

/-- `re.search` of a key-value pattern: leftmost start position at which
the whole pattern matches. -/
def kvSearch (kw : List Char) : List Char → Option (List Char)
  | [] => none
  | c :: cs =>
    match kvHere kw (c :: cs) with
    | some cap => some cap
    | none => kvSearch kw cs

/-- The lazy group `(.+?)` followed by a tail matcher, after an already
consumed greedy whitespace run.  Candidate end positions are tried in
the backtracking order of the Python engine: with the maximal
whitespace run first and the shortest capture growing (the lazy group),
then shrinking the whitespace run, which shifts the capture start
leftwards into the whitespace one character at a time.  Characters
captured by `.+?` must not be newlines. -/
def lazyDotPlusSearch {α : Type} (tailFn : List Char → Option α)
    (rest : List Char) : Option (List Char × α) :=
  let m := (rest.takeWhile isSpaceChar).length
  let maxExtra := ((rest.drop m).takeWhile (fun c => c ≠ '\n')).length
  let laterCands := (List.range maxExtra).map (fun j => m + 1 + j)
  let earlierCands :=
    ((List.range m).map (fun j => m - j)).filter
      (fun e => rest.getD (e - 1) ' ' ≠ '\n')
  (laterCands ++ earlierCands).findSome? (fun e =>
    (tailFn (rest.drop e)).map (fun a =>
      (if e > m then (rest.drop m).take (e - m)
       else (rest.drop (e - 1)).take 1, a)))

/-- Tail of the bin pattern after the name capture:
spaces, dash, spaces, the Hits keyword, colon, a digit run
(captured as a number), dash, the Status keyword, colon and a word
capture.  Every repetition here is followed by a character outside its
class, so the greedy matches are deterministic. -/
def binTail (cs : List Char) : Option (Nat × List Char) := do
  let cs ← expectChar '-' (skipSpaces cs)
  let cs ← matchCI "hits".toList (skipSpaces cs)
  let cs ← expectChar ':' (skipSpaces cs)
  let cs1 := skipSpaces cs
  let ds := cs1.takeWhile isDigitChar
  if ds.isEmpty then none else
  let cs2 := cs1.dropWhile isDigitChar
  let cs ← expectChar '-' (skipSpaces cs2)
  let cs ← matchCI "status".toList (skipSpaces cs)
  let cs ← expectChar ':' (skipSpaces cs)
  let ws := (skipSpaces cs).takeWhile isWordChar
  if ws.isEmpty then none else
  some (natOfDigits ds, ws)

/-- One anchored attempt of the bin pattern. -/
def binHere (cs : List Char) : Option (List Char × Nat × List Char) := do
  let cs ← matchCI "bin".toList cs
  let cs ← expectChar ':' (skipSpaces cs)
  let (g1, (h, w)) ← lazyDotPlusSearch binTail cs
  some (g1, h, w)

/-- `re.search` of the bin pattern. -/
def binSearch : List Char → Option (List Char × Nat × List Char)
  | [] => none
  | c :: cs =>
    match binHere (c :: cs) with
    | some r => some r
    | none => binSearch cs

/-- The numeric piece of a percentage: a digit run, an optional dot, a
second digit run, then spaces and a percent sign.  The greedy
repetitions are deterministic here: shrinking any digit run leaves a
digit where the following space-or-percent is required, and dropping a
present dot leaves the dot itself there, so no alternative assignment
can succeed at the same start position. -/
def percentNumAt (cs : List Char) : Option (Rat × List Char) :=
  let d1 := cs.takeWhile isDigitChar
  if d1.isEmpty then none else
  let cs1 := cs.dropWhile isDigitChar
  let fr :=
    match cs1 with
    | '.' :: r => (r.takeWhile isDigitChar, r.dropWhile isDigitChar)
    | _ => ([], cs1)
  match expectChar '%' (skipSpaces fr.2) with
  | some rest =>
    some ((natOfDigits d1 : Rat) + (natOfDigits fr.1 : Rat) / (10 ^ fr.1.length : Nat), rest)
  | none => none

/-- `re.search` of the percentage pattern. -/
def percentSearch : List Char → Option Rat
  | [] => none
  | c :: cs =>
    match percentNumAt (c :: cs) with
    | some (v, _) => some v
    | none => percentSearch cs

/-- Tail of the cross pattern after the name capture: spaces, dash, the
Coverage keyword, colon, then a percentage whose numeric value is
captured. -/
def crossTail (cs : List Char) : Option Rat := do
  let cs ← expectChar '-' (skipSpaces cs)
  let cs ← matchCI "coverage".toList (skipSpaces cs)
  let cs ← expectChar ':' (skipSpaces cs)
  let (v, _) ← percentNumAt (skipSpaces cs)
  some v

/-- One anchored attempt of the cross pattern. -/
def crossHere (cs : List Char) : Option (List Char × Rat) := do
  let cs ← matchCI "cross".toList cs
  let cs ← expectChar ':' (skipSpaces cs)
  lazyDotPlusSearch crossTail cs

/-- `re.search` of the cross pattern. -/
def crossSearch : List Char → Option (List Char × Rat)
  | [] => none
  | c :: cs =>
    match crossHere (c :: cs) with
    | some r => some r
    | none => crossSearch cs

/-! ## Data model (`src/parser.py` dataclasses) -/

/-- `CoverageStatus` enumeration. -/
inductive CoverageStatus
  | covered
  | uncovered
  | ignored
deriving DecidableEq, Repr

/-- `Bin` dataclass. -/
structure Bin where
  name : String
  hit_count : Nat
  status : CoverageStatus
  goal : Option Nat := none
deriving DecidableEq, Repr

/-- `Coverpoint` dataclass (percentages are Python floats, modelled as
exact rationals). -/
structure Coverpoint where
  name : String
  bins : List Bin
  coverage_percentage : Rat
  total_bins : Nat
  covered_bins : Nat
deriving DecidableEq, Repr

/-- `CrossCoverage` dataclass. -/
structure CrossCoverage where
  name : String
  coverpoints : List String
  bins : List Bin
  coverage_percentage : Rat
  total_bins : Nat
  covered_bins : Nat
deriving DecidableEq, Repr

/-- `Covergroup` dataclass. -/
structure Covergroup where
  name : String
  coverpoints : List Coverpoint
  cross_coverage : List CrossCoverage
  coverage_percentage : Rat
  total_bins : Nat
  covered_bins : Nat
deriving DecidableEq, Repr

/-- The dictionary built by `_extract_uncovered_bins` for one uncovered
bin, modelled as a record of its five keys. -/
structure UncoveredBinInfo where
  covergroup : String
  coverpoint : String
  bin : String
  hit_count : Nat
  coverage_percentage : Rat
deriving DecidableEq, Repr

/-- The dictionary built by `_extract_uncovered_crosses` for one
uncovered cross bin, modelled as a record of its six keys. -/
structure UncoveredCrossInfo where
  covergroup : String
  cross : String
  coverpoints : List String
  bin : String
  hit_count : Nat
  coverage_percentage : Rat
deriving DecidableEq, Repr

/-- `CoverageReport` dataclass. -/
structure CoverageReport where
  design_name : String
  overall_coverage : Rat
  covergroups : List Covergroup
  uncovered_bins : List UncoveredBinInfo
  uncovered_crosses : List UncoveredCrossInfo
deriving DecidableEq, Repr

/-! ## Line-level derived matchers -/

/-- The covergroup header pattern, with the captured name stripped as
the parser does. -/
def cgMatch (l : List Char) : Option String :=
  (kvSearch "covergroup".toList l).map (fun g => String.mk (pyStrip g))

/-- The coverpoint header pattern, with the captured name stripped. -/
def cpMatch (l : List Char) : Option String :=
  (kvSearch "coverpoint".toList l).map (fun g => String.mk (pyStrip g))

/-- The design-name pattern, capture not yet stripped
(`_extract_design_name` strips it). -/
def designMatch (l : List Char) : Option (List Char) :=
  kvSearch "design".toList l

/-- The bin pattern: stripped name, hit count, raw status word. -/
def binMatch (l : List Char) : Option (String × Nat × List Char) :=
  (binSearch l).map (fun r => (String.mk (pyStrip r.1), r.2.1, r.2.2))

/-- The cross pattern: stripped name and the header's percentage. -/
def crossMatch (l : List Char) : Option (String × Rat) :=
  (crossSearch l).map (fun r => (String.mk (pyStrip r.1), r.2))

/-- Status-word classification in the coverpoint-bin branch of
`_extract_covergroups` (lines 166-170): Covered when the lowered word
EQUALS "covered" or contains "hit"; Ignored when it contains "ignore";
otherwise Uncovered. -/
def binStatusOfWord (w : List Char) : CoverageStatus :=
  let s := (pyStrip w).map Char.toLower
  if s = "covered".toList || listHasSub "hit".toList s then .covered
  else if listHasSub "ignore".toList s then .ignored
  else .uncovered

/-- Status-word classification in the cross-bin absorption branch
(lines 198-202): Covered when the lowered word CONTAINS "cover" or
contains "hit"; Ignored when it contains "ignore"; otherwise
Uncovered. -/
def crossStatusOfWord (w : List Char) : CoverageStatus :=
  let s := (pyStrip w).map Char.toLower
  if listHasSub "cover".toList s || listHasSub "hit".toList s then .covered
  else if listHasSub "ignore".toList s then .ignored
  else .uncovered

/-! ## The `_extract_covergroups` state machine -/

/-- Number of covered bins, `sum(1 for b in bins if b.status == COVERED)`. -/
def countCovered (bs : List Bin) : Nat :=
  (bs.filter (fun b => decide (b.status = CoverageStatus.covered))).length

/-- The stats update applied to a coverpoint (lines 226-230 and
236-239): recompute `total_bins` and `covered_bins` from the owned
bins, and `coverage_percentage` only when `total_bins > 0`. -/
def finalizeCp (cp : Coverpoint) : Coverpoint :=
  let t := cp.bins.length
  let c := countCovered cp.bins
  { cp with
    total_bins := t
    covered_bins := c
    coverage_percentage :=
      if t > 0 then (c : Rat) / (t : Rat) * 100 else cp.coverage_percentage }

/-- The mutable loop variables of `_extract_covergroups`. -/
structure ParseLoopState where
  covergroups : List Covergroup
  currentCg : Option Covergroup
  currentCp : Option Coverpoint
deriving DecidableEq, Repr

/-- The covergroup check (lines 131-144): close any in-progress
covergroup into the report, open a fresh one, reset the coverpoint
cursor.  The in-progress coverpoint is NOT appended anywhere. -/
def stepCg (st : ParseLoopState) (l : List Char) : ParseLoopState :=
  match cgMatch l with
  | some name =>
    { covergroups := st.covergroups ++ st.currentCg.toList
      currentCg := some
        ({ name := name, coverpoints := [], cross_coverage := []
           coverage_percentage := 0, total_bins := 0, covered_bins := 0 } : Covergroup)
      currentCp := none }
  | none => st

/-- The coverpoint check (lines 147-157): requires an open covergroup;
close any in-progress coverpoint into it (as constructed, without a
stats update) and open a fresh one. -/
def stepCp (st : ParseLoopState) (l : List Char) : ParseLoopState :=
  match cpMatch l, st.currentCg with
  | some name, some cg =>
    let cg :=
      match st.currentCp with
      | some cp => { cg with coverpoints := cg.coverpoints ++ [cp] }
      | none => cg
    { st with
      currentCg := some cg
      currentCp := some
        ({ name := name, bins := [], coverage_percentage := 0
           total_bins := 0, covered_bins := 0 } : Coverpoint) }
  | _, _ => st

/-- The bin check (lines 160-177): requires an open coverpoint; append
a bin classified with the coverpoint-path status mapping. -/
def stepBin (st : ParseLoopState) (l : List Char) : ParseLoopState :=
  match binMatch l, st.currentCp with
  | some (n, h, w), some cp =>
    let b : Bin := { name := n, hit_count := h, status := binStatusOfWord w }
    { st with currentCp := some ({ cp with bins := cp.bins ++ [b] }) }
  | _, _ => st

/-- One line's covergroup, coverpoint and bin checks (lines 131-177),
evaluated sequentially on the same line exactly as the three
non-exclusive `if` blocks do. -/
def stepLine (st : ParseLoopState) (l : List Char) : ParseLoopState :=
  stepBin (stepCp (stepCg st l) l) l

/-- The cross-bin absorption lookahead (lines 190-209): consume lines
until the next covergroup or coverpoint header (which stays unread),
collecting every bin-pattern line with the cross status mapping. -/
def absorbCross : List (List Char) → List Bin × List (List Char)
  | [] => ([], [])
  | l :: rest =>
    if (cgMatch l).isSome || (cpMatch l).isSome then ([], l :: rest)
    else
      let bs : List Bin :=
        match binMatch l with
        | some (n, h, w) =>
          [{ name := n, hit_count := h, status := crossStatusOfWord w }]
        | none => []
      let r := absorbCross rest
      (bs ++ r.1, r.2)

/-- Split on every occurrence of a separator character, the semantics
of Python `str.split(sep)` with a one-character separator (and of
`String.splitOn` for it), written structurally so it evaluates by
kernel reduction. -/
def splitOnChar (sep : Char) : List Char → List (List Char)
  | [] => [[]]
  | c :: cs =>
    if c = sep then [] :: splitOnChar sep cs
    else
      match splitOnChar sep cs with
      | l :: ls => (c :: l) :: ls
      | [] => [[c]]

/-- The coverpoint names of a cross, `cross_name.split('x')` with each
piece stripped. -/
def crossCoverpointNames (name : String) : List String :=
  (splitOnChar 'x' name.toList).map (fun s => String.mk (pyStrip s))

/-- The cross branch (lines 180-223): when the line matches the cross
pattern and a covergroup is open, absorb the following bin lines as the
cross's own bins, compute its bin counts from them, take its
`coverage_percentage` verbatim from the header, and append it to the
open covergroup.  Returns the new state and the unconsumed lines. -/
def crossStep (st : ParseLoopState) (l : List Char)
    (rest : List (List Char)) : ParseLoopState × List (List Char) :=
  match crossMatch l, st.currentCg with
  | some (name, pct), some cg =>
    let r := absorbCross rest
    let cross : CrossCoverage :=
      { name := name
        coverpoints := crossCoverpointNames name
        bins := r.1
        coverage_percentage := pct
        total_bins := r.1.length
        covered_bins := countCovered r.1 }
    let newCg : Covergroup :=
      { cg with cross_coverage := cg.cross_coverage ++ [cross] }
    ({ st with currentCg := some newCg }, r.2)
  | _, _ => (st, rest)

/-- The end-of-iteration stats update (lines 226-230), which fires only
when the cursor sits on the last line and a coverpoint is open. -/
def lastLineCpUpdate (st : ParseLoopState) : ParseLoopState :=
  match st.currentCp with
  | some cp => { st with currentCp := some (finalizeCp cp) }
  | none => st

/-- The main `while` loop of `_extract_covergroups` (lines 128-232),
written with a structural fuel argument so that it evaluates by kernel
reduction; every iteration consumes at least one line, so any fuel of
at least the number of lines gives the loop's semantics
(`parseLoopF_congr` below). -/
def parseLoopF : Nat → ParseLoopState → List (List Char) → ParseLoopState
  | _, st, [] => st
  | 0, st, _ :: _ => st
  | fuel + 1, st, l :: rest =>
    let st1 := stepLine st l
    let p := crossStep st1 l rest
    let st3 := if p.2.isEmpty then lastLineCpUpdate p.1 else p.1
    parseLoopF fuel st3 p.2

/-- The loop with exactly enough fuel. -/
def parseLoop (st : ParseLoopState) (lines : List (List Char)) : ParseLoopState :=
  parseLoopF lines.length st lines

/-- The post-loop block (lines 234-255): close the in-progress
coverpoint into the in-progress covergroup, compute that covergroup's
aggregate triad over the union of all bins of its coverpoints and
crosses, and append it. -/
def finalizeParse (st : ParseLoopState) : List Covergroup :=
  let curCg :=
    match st.currentCp, st.currentCg with
    | some cp, some cg =>
      some { cg with coverpoints := cg.coverpoints ++ [finalizeCp cp] }
    | _, _ => st.currentCg
  match curCg with
  | some cg =>
    let allBins := (cg.coverpoints.map Coverpoint.bins).flatten ++
      (cg.cross_coverage.map CrossCoverage.bins).flatten
    st.covergroups ++
      [{ cg with
          total_bins := allBins.length
          covered_bins := countCovered allBins
          coverage_percentage :=
            if allBins.length > 0 then
              (countCovered allBins : Rat) / (allBins.length : Rat) * 100
            else cg.coverage_percentage }]
  | none => st.covergroups

/-- `_extract_covergroups`. -/
def extractCovergroups (lines : List (List Char)) : List Covergroup :=
  finalizeParse (parseLoop ⟨[], none, none⟩ lines)

/-- `_extract_design_name`: first line matching the design pattern,
stripped; `"Unknown Design"` when none matches. -/
def extractDesignName (lines : List (List Char)) : String :=
  match lines.findSome? designMatch with
  | some cap => String.mk (pyStrip cap)
  | none => "Unknown Design"

/-- `_extract_overall_coverage`: first line containing the literal text
`Overall Coverage` or `Total Coverage` on which the percentage pattern
also matches; `0.0` when none does. -/
def extractOverallCoverage (lines : List (List Char)) : Rat :=
  match lines.findSome? (fun l =>
    if listHasSub "Overall Coverage".toList l ||
       listHasSub "Total Coverage".toList l
    then percentSearch l else none) with
  | some v => v
  | none => 0

/-- `_extract_uncovered_bins`. -/
def extractUncoveredBins (cgs : List Covergroup) : List UncoveredBinInfo :=
  cgs.flatMap (fun cg => cg.coverpoints.flatMap (fun cp =>
    (cp.bins.filter (fun b => decide (b.status = CoverageStatus.uncovered))).map
      (fun b =>
        { covergroup := cg.name, coverpoint := cp.name, bin := b.name
          hit_count := b.hit_count
          coverage_percentage := cp.coverage_percentage })))

/-- `_extract_uncovered_crosses`. -/
def extractUncoveredCrosses (cgs : List Covergroup) : List UncoveredCrossInfo :=
  cgs.flatMap (fun cg => cg.cross_coverage.flatMap (fun cross =>
    (cross.bins.filter (fun b => decide (b.status = CoverageStatus.uncovered))).map
      (fun b =>
        { covergroup := cg.name, cross := cross.name
          coverpoints := cross.coverpoints, bin := b.name
          hit_count := b.hit_count
          coverage_percentage := cross.coverage_percentage })))

/-- The line split of `parse`, Python `report_text.split('\n')`. -/
def linesOf (text : String) : List (List Char) :=
  splitOnChar '\n' text.toList

/-- `CoverageReportParser.parse`. -/
def parse (text : String) : CoverageReport :=
  let lines := linesOf text
  let cgs := extractCovergroups lines
  { design_name := extractDesignName lines
    overall_coverage := extractOverallCoverage lines
    covergroups := cgs
    uncovered_bins := extractUncoveredBins cgs
    uncovered_crosses := extractUncoveredCrosses cgs }

/-! ## Suggestions (`src/llm_integration.py` is not among the sources) -/

/-- Modelled from the spec: `DifficultyLevel` is defined in
`src/llm_integration.py`, which is not among the given sources; §3 of
the design document specifies the closed enumeration
Easy, Medium, Hard, VeryHard. -/
inductive DifficultyLevel
  | easy
  | medium
  | hard
  | very_hard
deriving DecidableEq, Repr

/-- Modelled from the spec: the uncovered-item context record that a
`TestSuggestion` references (§3, §6).  In the source it is a Python
dictionary; it is modelled by the results of the four lookups the
prioritizer and predictor perform on it: `get('bin')` (`none` when the
key is absent), `get('coverage_percentage', …)` likewise, and the
membership tests for the `cross` and `coverpoints` keys. -/
structure SuggestionContext where
  bin : Option String
  coverage_percentage : Option Rat
  has_cross : Bool
  has_coverpoints : Bool
deriving DecidableEq, Repr

/-- Modelled from the spec: `TestSuggestion` from
`src/llm_integration.py` (not among the given sources), with the fields
§3 lists; `priority_score` is the field the prioritizer writes. -/
structure TestSuggestion where
  uncovered_bin : SuggestionContext
  description : String
  difficulty : DifficultyLevel
  dependencies : List String
  estimated_time_hours : Rat
  priority_score : Rat := 0
deriving DecidableEq, Repr

/-! ## `src/prioritization.py` -/

/-- The three normalized weights held by a `Prioritizer`. -/
structure Prioritizer where
  coverage_impact_weight : Rat
  difficulty_weight : Rat
  dependency_weight : Rat
deriving DecidableEq, Repr

/-- `Prioritizer.__init__`: normalize the weights to sum to 1 when
their sum is positive, otherwise keep them as given. -/
def mkPrioritizer (a b c : Rat) : Prioritizer :=
  let total := a + b + c
  if total > 0 then ⟨a / total, b / total, c / total⟩ else ⟨a, b, c⟩

/-- `Prioritizer._calculate_coverage_impact`. -/
def calculateCoverageImpact (s : TestSuggestion) : Rat :=
  let coverpoint_coverage := (s.uncovered_bin.coverage_percentage.getD 0) / 100
  let impact := 1 - coverpoint_coverage
  let impact :=
    if s.uncovered_bin.has_cross || s.uncovered_bin.has_coverpoints then
      min 1 (impact * (12 / 10 : Rat))
    else impact
  min 1 (max 0 impact)

/-- `Prioritizer._calculate_inverse_difficulty`; the dictionary default
0.5 is unreachable because the enumeration is closed. -/
def calculateInverseDifficulty (s : TestSuggestion) : Rat :=
  match s.difficulty with
  | .easy => 1
  | .medium => 7 / 10
  | .hard => 4 / 10
  | .very_hard => 2 / 10

/-- `Prioritizer._calculate_dependency_score`. -/
def calculateDependencyScore (s : TestSuggestion) : Rat :=
  1 / (1 + (s.dependencies.length : Rat))

/-- `Prioritizer._calculate_priority_score`. -/
def calculatePriorityScore (p : Prioritizer) (s : TestSuggestion) : Rat :=
  p.coverage_impact_weight * calculateCoverageImpact s +
  p.difficulty_weight * calculateInverseDifficulty s +
  p.dependency_weight * calculateDependencyScore s

/-- Insertion into a descending run: after strictly greater scores,
before equal ones — the placement Python's stable
`sorted(…, reverse=True)` gives an element relative to the elements
that follow it in the input. -/
def insertDesc (x : TestSuggestion) : List TestSuggestion → List TestSuggestion
  | [] => [x]
  | y :: ys =>
    if y.priority_score > x.priority_score then y :: insertDesc x ys
    else x :: y :: ys

/-- Stable descending sort by `priority_score`, the model of
`sorted(suggestions, key=…, reverse=True)`. -/
def sortDescByScore (l : List TestSuggestion) : List TestSuggestion :=
  l.foldr insertDesc []

/-- `Prioritizer.prioritize`: write every score, then stable-sort by
score descending. -/
def prioritize (p : Prioritizer) (suggestions : List TestSuggestion) :
    List TestSuggestion :=
  sortDescByScore
    (suggestions.map (fun s =>
      { s with priority_score := calculatePriorityScore p s }))

/-! ## `src/coverage_prediction.py` -/

/-- The per-suggestion penalty table of
`_calculate_difficulty_penalty`; its dictionary default 0.5 is
unreachable because the enumeration is closed. -/
def difficultyPenalty : DifficultyLevel → Rat
  | .easy => 1 / 10
  | .medium => 3 / 10
  | .hard => 6 / 10
  | .very_hard => 9 / 10

/-- `CoverageClosurePredictor._calculate_difficulty_penalty`. -/
def calculateDifficultyPenalty (suggestions : List TestSuggestion) : Rat :=
  if suggestions.isEmpty then 0
  else ((suggestions.map (fun s => difficultyPenalty s.difficulty)).sum) /
    (suggestions.length : Rat)

/-- `CoverageClosurePredictor._predict_100_percent_likelihood`. -/
def predictLikelihood (report : CoverageReport)
    (suggestions : List TestSuggestion) : Rat :=
  let total_uncovered :=
    report.uncovered_bins.length + report.uncovered_crosses.length
  if total_uncovered = 0 then 1
  else if suggestions.length = 0 then 0
  else
    let suggestion_ratio :=
      min 1 ((suggestions.length : Rat) / (total_uncovered : Rat))
    let difficulty_penalty := calculateDifficultyPenalty suggestions
    let current_coverage_factor := report.overall_coverage / 100
    let likelihood := suggestion_ratio * (1 - difficulty_penalty) *
      (1 / 2 + 1 / 2 * current_coverage_factor)
    min 1 (max 0 likelihood)

/-- One entry of the blocking-bins list: the spread copy of the
uncovered-bin record plus the `reason` and `severity` keys. -/
structure BlockingEntry where
  info : UncoveredBinInfo
  reason : String
  severity : String
deriving DecidableEq, Repr

/-- `CoverageClosurePredictor._identify_blocking_bins`: one entry per
uncovered bin with no suggestion at all, and one per uncovered bin
whose FIRST matching suggestion (the loop breaks on the first name
match) is VeryHard with at least 3 dependencies. -/
def identifyBlockingBins (report : CoverageReport)
    (suggestions : List TestSuggestion) : List BlockingEntry :=
  let uncovered_bin_names := report.uncovered_bins.map UncoveredBinInfo.bin
  let suggested_bin_names :=
    suggestions.map (fun s => s.uncovered_bin.bin.getD "")
  report.uncovered_bins.flatMap (fun info =>
    let bin_name := info.bin
    let noSuggestion : List BlockingEntry :=
      if uncovered_bin_names.contains bin_name &&
         !(suggested_bin_names.contains bin_name) then
        [⟨info, "No test suggestion generated", "medium"⟩]
      else []
    let veryHard : List BlockingEntry :=
      match suggestions.find? (fun s => s.uncovered_bin.bin == some bin_name) with
      | some s =>
        if s.difficulty = DifficultyLevel.very_hard ∧
           3 ≤ s.dependencies.length then
          [⟨info, "Very hard test with multiple dependencies", "high"⟩]
        else []
      | none => []
    noSuggestion ++ veryHard)

/-! ## Derived notions and concrete inputs used by the verification -/

/-- The bins the cross-absorption lookahead collects from a run of
lines (each bin-pattern line contributes one bin with the cross status
mapping). -/
def crossBinsOf (ls : List (List Char)) : List Bin :=
  ls.flatMap (fun m =>
    match binMatch m with
    | some (n, h, w) => [{ name := n, hit_count := h, status := crossStatusOfWord w }]
    | none => [])

/-- A cross's bin counters agree with its owned bin sequence. -/
def crossCountsOk (cr : CrossCoverage) : Prop :=
  cr.total_bins = cr.bins.length ∧ cr.covered_bins = countCovered cr.bins

/-- Loop invariant: every cross already stored in the state has
correct bin counters. -/
def CrossCountsInv (st : ParseLoopState) : Prop :=
  (∀ cg ∈ st.covergroups, ∀ cr ∈ cg.cross_coverage, crossCountsOk cr) ∧
  (∀ cg, st.currentCg = some cg → ∀ cr ∈ cg.cross_coverage, crossCountsOk cr)

/-- The likelihood formula as the design document states it (a second
definition following the spec's words, for comparison with the
source's `predictLikelihood`): 1.0 with no uncovered items, 0.0 with
uncovered items but no suggestions, otherwise
clamp(min(1, |suggestions|/total_uncovered) · (1 − mean difficulty
penalty) · (0.5 + 0.5·overall_coverage/100), 0, 1). -/
def likelihoodSpecFormula (report : CoverageReport)
    (suggestions : List TestSuggestion) : Rat :=
  let total_uncovered :=
    report.uncovered_bins.length + report.uncovered_crosses.length
  if total_uncovered = 0 then 1
  else if suggestions = [] then 0
  else
    let ratio := min 1 ((suggestions.length : Rat) / (total_uncovered : Rat))
    let meanPenalty :=
      ((suggestions.map (fun s => difficultyPenalty s.difficulty)).sum) /
        (suggestions.length : Rat)
    min 1 (max 0 (ratio * (1 - meanPenalty) *
      (1 / 2 + 1 / 2 * (report.overall_coverage / 100))))

/-- Report text with two coverpoints; the first is closed by the
second coverpoint header. -/
def c1Input : String :=
  "Covergroup: g\nCoverpoint: p\nBin: b - Hits: 1 - Status: covered\nCoverpoint: q\nBin: c - Hits: 0 - Status: zero"

/-- Report text where a second covergroup header arrives while a
coverpoint with one parsed bin is in progress. -/
def c2Input : String :=
  "Covergroup: g1\nCoverpoint: p\nBin: b - Hits: 2 - Status: covered\nCovergroup: g2"

/-- Report text whose bin line has a non-numeric Hits field. -/
def c7Input : String :=
  "Covergroup: g\nCoverpoint: p\nBin: b - Hits: xx - Status: covered"

/-- The coverpoint left binless after the malformed bin line of
`c7Input` is skipped. -/
def c7Coverpoint : Coverpoint :=
  { name := "p", bins := [], coverage_percentage := 0
    total_bins := 0, covered_bins := 0 }

/-- The report `parse` returns for `c7Input`. -/
def c7Expected : CoverageReport :=
  { design_name := "Unknown Design", overall_coverage := 0
    covergroups := [{ name := "g", coverpoints := [c7Coverpoint]
                      cross_coverage := [], coverage_percentage := 0
                      total_bins := 0, covered_bins := 0 }]
    uncovered_bins := [], uncovered_crosses := [] }

/-- Report text with a cross whose header says 50% while its one
absorbed bin is covered. -/
def c9Input : String :=
  "Covergroup: g\nCross: a x b - Coverage: 50%\nBin: cb - Hits: 1 - Status: covered"

/-- The covergroup produced by parsing `c9Input`. -/
def c9Cg : Covergroup :=
  { name := "g", coverpoints := []
    cross_coverage := [{ name := "a x b", coverpoints := ["a", "b"]
                         bins := [{ name := "cb", hit_count := 1
                                    status := CoverageStatus.covered }]
                         coverage_percentage := 50, total_bins := 1
                         covered_bins := 1 }]
    coverage_percentage := 100, total_bins := 1, covered_bins := 1 }

/-- An uncovered-bin context record for the predictor examples. -/
def c3Info : UncoveredBinInfo :=
  { covergroup := "cg1", coverpoint := "cp1", bin := "b1"
    hit_count := 0, coverage_percentage := 0 }

/-- A report with exactly one uncovered bin. -/
def c3Report : CoverageReport :=
  { design_name := "d", overall_coverage := 50, covergroups := []
    uncovered_bins := [c3Info], uncovered_crosses := [] }

/-- A VeryHard suggestion with three dependencies for that bin. -/
def c3Suggestion : TestSuggestion :=
  { uncovered_bin := { bin := some "b1", coverage_percentage := some 0
                       has_cross := false, has_coverpoints := false }
    description := "s", difficulty := DifficultyLevel.very_hard
    dependencies := ["d1", "d2", "d3"], estimated_time_hours := 1 }

/-- A VeryHard suggestion without dependencies over a fully uncovered
coverpoint (impact 1, inverse difficulty 0.2, dependency score 1). -/
def c4Suggestion : TestSuggestion :=
  { uncovered_bin := { bin := some "b", coverage_percentage := some 0
                       has_cross := false, has_coverpoints := false }
    description := "s", difficulty := DifficultyLevel.very_hard
    dependencies := [], estimated_time_hours := 1 }

/-- The cross parsed from `c9Input`. -/
def c9Cross : CrossCoverage :=
  { name := "a x b", coverpoints := ["a", "b"]
    bins := [{ name := "cb", hit_count := 1, status := CoverageStatus.covered }]
    coverage_percentage := 50, total_bins := 1, covered_bins := 1 }

/-- An empty open covergroup, the state component for the cross
absorption example. -/
def c10Cg : Covergroup :=
  { name := "g", coverpoints := [], cross_coverage := []
    coverage_percentage := 0, total_bins := 0, covered_bins := 0 }

/-- The state after the cross branch appends one `CrossCoverage` with
the given header name and percentage and the given absorbed bins to the
open covergroup. -/
def withNewCross (st : ParseLoopState) (cg : Covergroup) (nm : String)
    (pct : Rat) (bins : List Bin) : ParseLoopState :=
  let cross : CrossCoverage :=
    { name := nm, coverpoints := crossCoverpointNames nm, bins := bins
      coverage_percentage := pct, total_bins := bins.length
      covered_bins := countCovered bins }
  let cg2 : Covergroup :=
    { cg with cross_coverage := cg.cross_coverage ++ [cross] }
  { st with currentCg := some cg2 }

/-! ## Theorems -/

set_option maxRecDepth 40000
set_option synthInstance.maxSize 1000

theorem absorbCross_rest_length (ls : List (List Char)) :
    (absorbCross ls).2.length ≤ ls.length := by
  induction ls with
  | nil => simp [absorbCross]
  | cons l rest ih =>
    simp only [absorbCross]
    split
    · simp
    · simpa using Nat.le_succ_of_le ih

theorem crossStep_rest_length (st : ParseLoopState) (l : List Char)
    (rest : List (List Char)) :
    (crossStep st l rest).2.length ≤ rest.length := by
  unfold crossStep
  cases h : crossMatch l with
  | none => simp
  | some p =>
    cases hcg : st.currentCg with
    | none => simp
    | some cg => simpa using absorbCross_rest_length rest

/-- Fuel irrelevance: any fuel bounded below by the number of lines
computes the loop. -/
theorem parseLoopF_congr :
    ∀ (f1 f2 : Nat) (st : ParseLoopState) (lines : List (List Char)),
      lines.length ≤ f1 → lines.length ≤ f2 →
      parseLoopF f1 st lines = parseLoopF f2 st lines := by
  intro f1
  induction f1 with
  | zero =>
    intro f2 st lines h1 _
    cases lines with
    | nil => cases f2 <;> rfl
    | cons l rest => simp at h1
  | succ f ih =>
    intro f2 st lines h1 h2
    cases lines with
    | nil => cases f2 <;> rfl
    | cons l rest =>
      cases f2 with
      | zero => simp at h2
      | succ f2' =>
        simp only [parseLoopF]
        apply ih
        · exact le_trans (crossStep_rest_length (stepLine st l) l rest)
            (Nat.lt_succ_iff.mp h1)
        · exact le_trans (crossStep_rest_length (stepLine st l) l rest)
            (Nat.lt_succ_iff.mp h2)

/-- One unfolding step of the loop at its entry point. -/
theorem parseLoop_cons (st : ParseLoopState) (l : List Char)
    (rest : List (List Char)) :
    parseLoop st (l :: rest) =
      (let st1 := stepLine st l
       let p := crossStep st1 l rest
       let st3 := if p.2.isEmpty then lastLineCpUpdate p.1 else p.1
       parseLoop st3 p.2) := by
  show parseLoopF (rest.length + 1) st (l :: rest) = _
  simp only [parseLoopF, parseLoop]
  exact parseLoopF_congr _ _ _ _
    (crossStep_rest_length (stepLine st l) l rest) le_rfl

/-- C1: the claim says every coverpoint's and covergroup's triad
(`total_bins`, `covered_bins`, `coverage_percentage`) is computed from
its bins whenever it closes, by a later header as well as by
end-of-input.  The code computes the triad only at end-of-input: in
`c1Input` the coverpoint `p` closes at the second `Coverpoint:` header
holding one covered bin, yet keeps `total_bins = 0`, `covered_bins = 0`
and `coverage_percentage = 0`; only the last coverpoint `q` and the
last covergroup are finalized. -/
theorem c1_close_without_finalization :
    ((extractCovergroups (linesOf c1Input)).map fun cg =>
      (cg.total_bins, cg.covered_bins, cg.coverage_percentage,
       cg.coverpoints.map fun cp =>
         (cp.bins.length, cp.total_bins, cp.covered_bins, cp.coverage_percentage))) =
    [(2, 1, 50, [(1, 0, 0, 0), (1, 1, 0, 0)])] ∧
    ¬ (∀ cg ∈ extractCovergroups (linesOf c1Input), ∀ cp ∈ cg.coverpoints,
        cp.total_bins = cp.bins.length) := by
  with_unfolding_all decide

/-- C2: the claim says that on a `Covergroup:` header the in-progress
coverpoint is appended to its covergroup before that covergroup is
appended to the report, so no parsed bins are lost.  The code only
appends the covergroup and resets the coverpoint cursor, dropping the
in-progress coverpoint: in `c2Input`, coverpoint `p` (whose bin line
was recognized) vanishes and `g1` ends with no coverpoints at all. -/
theorem c2_coverpoint_dropped :
    ((extractCovergroups (linesOf c2Input)).map fun cg =>
      (cg.name, cg.coverpoints.map Coverpoint.name, cg.total_bins)) =
      [("g1", [], 0), ("g2", [], 0)] ∧
    (binMatch "Bin: b - Hits: 2 - Status: covered".toList).isSome = true ∧
    (cpMatch "Coverpoint: p".toList).isSome = true := by
  with_unfolding_all decide

/-- C6 counterexample: the claim says both bin paths classify a status
word as Covered exactly when its lowering contains "cover" or "hit".
The word "uncovered" contains "cover", yet the coverpoint-bin path
(which compares for equality with "covered") classifies it Uncovered,
while the cross path classifies it Covered — the two paths disagree and
the claimed mapping fails on the coverpoint path. -/
theorem c6_counterexample :
    listHasSub "cover".toList
      ((pyStrip "uncovered".toList).map Char.toLower) = true ∧
    binStatusOfWord "uncovered".toList = CoverageStatus.uncovered ∧
    crossStatusOfWord "uncovered".toList = CoverageStatus.covered := by
  decide

/-- C7 counterexample: the claim says a bin line whose Hits field is
not a valid non-negative integer makes parsing raise a `ParseError`
naming the line.  The code has no error path at all: the digit group of
the bin pattern simply fails to match, the line is skipped, and `parse`
returns a report whose open coverpoint has no bins. -/
theorem c7_counterexample :
    parse c7Input = c7Expected ∧
    binMatch "Bin: b - Hits: xx - Status: covered".toList = none := by
  with_unfolding_all decide

/-- C9 counterexample: the claim says a parsed cross's
`coverage_percentage` equals `100·covered_bins/total_bins` computed
from its own bins, never set independently.  In `c9Input` the cross has
one bin, one covered, but `coverage_percentage = 50`, the number taken
verbatim from its header, not `100·1/1`. -/
theorem c9_counterexample :
    ((extractCovergroups (linesOf c9Input)).map fun cg =>
      cg.cross_coverage.map fun cr =>
        (cr.total_bins, cr.covered_bins, cr.coverage_percentage)) =
      [[(1, 1, 50)]] ∧
    ¬ ((50 : Rat) = 100 * 1 / 1) := by
  with_unfolding_all decide

/-- C3 counterexample: the claim says a bin with exactly one
suggestion, VeryHard with 3 dependencies, appears twice in
`blocking_bins` (once per reason).  It appears exactly once: the
"no suggestion generated" entry requires the bin to have no suggestion
at all, which contradicts having the VeryHard one. -/
theorem c3_counterexample :
    identifyBlockingBins c3Report [c3Suggestion] =
      [{ info := c3Info, reason := "Very hard test with multiple dependencies"
         severity := "high" }] ∧
    ((identifyBlockingBins c3Report [c3Suggestion]).map BlockingEntry.reason) =
      ["Very hard test with multiple dependencies"] := by
  with_unfolding_all decide

/-- C4 counterexample: the claim says every computed `priority_score`
lies in [0, 1] for every weight triple with positive sum.  The triple
(2, −1, 0) has sum 1 > 0, but scores the fully uncovered VeryHard
suggestion `c4Suggestion` at 2·1 − 1·0.2 + 0·1 = 1.8 > 1. -/
theorem c4_counterexample :
    ((prioritize (mkPrioritizer 2 (-1) 0) [c4Suggestion]).map
      TestSuggestion.priority_score) = [9 / 5] ∧
    (0 : Rat) < 2 + (-1) + 0 ∧
    ¬ ((9 / 5 : Rat) ≤ 1) := by
  with_unfolding_all decide

/-- C6 amended: the two bin paths use DIFFERENT status mappings.  The
coverpoint-bin path classifies Covered exactly when the stripped,
lowered word equals "covered" or contains "hit"; the cross path exactly
when it contains "cover" or contains "hit"; both classify Ignored
exactly when the word is not Covered and contains "ignore", and
Uncovered otherwise. -/
theorem c6_amended (w : List Char) :
    (binStatusOfWord w = CoverageStatus.covered ↔
      ((pyStrip w).map Char.toLower = "covered".toList ∨
        listHasSub "hit".toList ((pyStrip w).map Char.toLower) = true)) ∧
    (crossStatusOfWord w = CoverageStatus.covered ↔
      (listHasSub "cover".toList ((pyStrip w).map Char.toLower) = true ∨
        listHasSub "hit".toList ((pyStrip w).map Char.toLower) = true)) ∧
    (binStatusOfWord w = CoverageStatus.ignored ↔
      (¬ ((pyStrip w).map Char.toLower = "covered".toList ∨
          listHasSub "hit".toList ((pyStrip w).map Char.toLower) = true) ∧
        listHasSub "ignore".toList ((pyStrip w).map Char.toLower) = true)) ∧
    (crossStatusOfWord w = CoverageStatus.ignored ↔
      (¬ (listHasSub "cover".toList ((pyStrip w).map Char.toLower) = true ∨
          listHasSub "hit".toList ((pyStrip w).map Char.toLower) = true) ∧
        listHasSub "ignore".toList ((pyStrip w).map Char.toLower) = true)) := by
  unfold binStatusOfWord crossStatusOfWord
  refine ⟨?_, ?_, ?_, ?_⟩ <;>
    · dsimp only
      split_ifs <;> simp_all

/-- C7 amended: a bin line whose Hits field is non-numeric does not
match the bin pattern (whose hit group requires a digit run), so the
line is silently skipped — it changes the parser state in no way,
whatever that state is — and no error of any kind is raised (`parse`
has no failure path). -/
theorem c7_amended (st : ParseLoopState) (rest : List (List Char)) :
    binMatch "Bin: b - Hits: xx - Status: covered".toList = none ∧
    stepLine st "Bin: b - Hits: xx - Status: covered".toList = st ∧
    crossStep st "Bin: b - Hits: xx - Status: covered".toList rest =
      (st, rest) := by
  have hcg : cgMatch "Bin: b - Hits: xx - Status: covered".toList = none := by decide
  have hcp : cpMatch "Bin: b - Hits: xx - Status: covered".toList = none := by decide
  have hbin : binMatch "Bin: b - Hits: xx - Status: covered".toList = none := by decide
  have hcross : crossMatch "Bin: b - Hits: xx - Status: covered".toList = none := by decide
  refine ⟨hbin, ?_, ?_⟩
  · unfold stepLine stepBin stepCp stepCg
    rw [hcg, hcp, hbin]
  · unfold crossStep
    rw [hcross]

/-- C8: `parse` is total by construction (it has no failure path); a
report with no line matching the design pattern gets
`design_name = "Unknown Design"`, a report with no line containing
"Overall Coverage" or "Total Coverage" gets `overall_coverage = 0`,
and a line matching none of the four hierarchy patterns leaves the
parser state untouched (it is silently skipped). -/
theorem c8_parse_totality (text : String) :
    ((∀ l ∈ linesOf text, designMatch l = none) →
      (parse text).design_name = "Unknown Design") ∧
    ((∀ l ∈ linesOf text,
        listHasSub "Overall Coverage".toList l = false ∧
        listHasSub "Total Coverage".toList l = false) →
      (parse text).overall_coverage = 0) ∧
    (∀ (st : ParseLoopState) (l : List Char) (rest : List (List Char)),
      cgMatch l = none → cpMatch l = none → binMatch l = none →
      crossMatch l = none →
      stepLine st l = st ∧ crossStep st l rest = (st, rest)) := by
  refine ⟨?_, ?_, ?_⟩
  · intro h
    show extractDesignName (linesOf text) = _
    unfold extractDesignName
    rw [List.findSome?_eq_none_iff.mpr h]
  · intro h
    show extractOverallCoverage (linesOf text) = _
    unfold extractOverallCoverage
    have hnone : List.findSome? (fun l =>
        if listHasSub "Overall Coverage".toList l ||
           listHasSub "Total Coverage".toList l
        then percentSearch l else none) (linesOf text) = none := by
      rw [List.findSome?_eq_none_iff]
      intro l hl
      rcases h l hl with ⟨h1, h2⟩
      rw [h1, h2]
      rfl
    rw [hnone]
  · intro st l rest hcg hcp hbin hcross
    constructor
    · unfold stepLine stepBin stepCp stepCg
      rw [hcg, hcp, hbin]
    · unfold crossStep
      rw [hcross]

/-- C8 witness: a one-line report with no recognized header parses to
the documented defaults. -/
theorem c8_witness :
    (parse "hello").design_name = "Unknown Design" ∧
    (parse "hello").overall_coverage = 0 :=
  ⟨(c8_parse_totality "hello").1 (by decide),
   (c8_parse_totality "hello").2.1 (by decide)⟩

/-- C3 amended: for a report with exactly one uncovered bin whose one
suggestion is VeryHard with at least 3 dependencies, `blocking_bins`
contains exactly ONE entry for that bin, the
"Very hard test with multiple dependencies" / "high" one; the
"No test suggestion generated" / "medium" entry is emitted only for
bins with no suggestion at all, so the two reasons never both fire for
the same bin record. -/
theorem c3_amended (report : CoverageReport) (s : TestSuggestion)
    (info : UncoveredBinInfo)
    (hub : report.uncovered_bins = [info])
    (hbin : s.uncovered_bin.bin = some info.bin)
    (hd : s.difficulty = DifficultyLevel.very_hard)
    (hdeps : 3 ≤ s.dependencies.length) :
    identifyBlockingBins report [s] =
      [{ info := info, reason := "Very hard test with multiple dependencies"
         severity := "high" }] := by
  unfold identifyBlockingBins
  rw [hub]
  simp [hbin, hd, hdeps, List.find?]

/-- C3 witness: the amended statement evaluated at the concrete
one-bin report and its VeryHard three-dependency suggestion. -/
theorem c3_witness :
    identifyBlockingBins c3Report [c3Suggestion] =
      [{ info := c3Info, reason := "Very hard test with multiple dependencies"
         severity := "high" }] :=
  c3_amended c3Report c3Suggestion c3Info rfl rfl rfl (by decide)

/-- C5: the predictor's likelihood equals the spec's formula — exactly
1 when there are no uncovered bins and no uncovered crosses, exactly 0
when there are uncovered items but no suggestions, and otherwise
clamp(min(1, |suggestions|/total_uncovered) · (1 − mean difficulty
penalty with Easy 0.1, Medium 0.3, Hard 0.6, VeryHard 0.9) ·
(0.5 + 0.5·overall_coverage/100), 0, 1). -/
theorem c5_likelihood (report : CoverageReport)
    (suggestions : List TestSuggestion) :
    predictLikelihood report suggestions =
      likelihoodSpecFormula report suggestions ∧
    (report.uncovered_bins = [] → report.uncovered_crosses = [] →
      predictLikelihood report suggestions = 1) ∧
    (report.uncovered_bins.length + report.uncovered_crosses.length ≠ 0 →
      suggestions = [] → predictLikelihood report suggestions = 0) := by
  refine ⟨?_, ?_, ?_⟩
  · unfold predictLikelihood likelihoodSpecFormula calculateDifficultyPenalty
    cases suggestions with
    | nil => simp
    | cons a as => simp
  · intro h1 h2
    unfold predictLikelihood
    simp [h1, h2]
  · intro h1 h2
    subst h2
    unfold predictLikelihood
    simp [h1]

/-- C5 witness: a fully covered report gives likelihood exactly 1, and
an uncovered bin with no suggestions gives exactly 0. -/
theorem c5_witness :
    predictLikelihood
      { design_name := "d", overall_coverage := 0, covergroups := []
        uncovered_bins := [], uncovered_crosses := [] } [] = 1 ∧
    predictLikelihood
      { design_name := "d", overall_coverage := 0, covergroups := []
        uncovered_bins := [c3Info], uncovered_crosses := [] } [] = 0 :=
  ⟨(c5_likelihood _ _).2.1 rfl rfl,
   (c5_likelihood _ _).2.2 (by simp) rfl⟩

theorem insertDesc_perm (x : TestSuggestion) (l : List TestSuggestion) :
    (insertDesc x l).Perm (x :: l) := by
  induction l with
  | nil => simp [insertDesc]
  | cons y ys ih =>
    unfold insertDesc
    split
    · exact (ih.cons y).trans (List.Perm.swap x y ys)
    · exact List.Perm.refl _

theorem sortDescByScore_perm (l : List TestSuggestion) :
    (sortDescByScore l).Perm l := by
  induction l with
  | nil => simp [sortDescByScore]
  | cons x xs ih => exact (insertDesc_perm x _).trans (ih.cons x)

theorem insertDesc_pairwise (x : TestSuggestion) (l : List TestSuggestion)
    (h : l.Pairwise (fun a b => b.priority_score ≤ a.priority_score)) :
    (insertDesc x l).Pairwise
      (fun a b => b.priority_score ≤ a.priority_score) := by
  induction l with
  | nil => simp [insertDesc]
  | cons y ys ih =>
    rw [List.pairwise_cons] at h
    unfold insertDesc
    split
    case isTrue hgt =>
      rw [List.pairwise_cons]
      refine ⟨?_, ih h.2⟩
      intro z hz
      rcases List.mem_cons.mp ((insertDesc_perm x ys).mem_iff.mp hz) with hz1 | hz1
      · exact hz1 ▸ le_of_lt hgt
      · exact h.1 z hz1
    case isFalse hle =>
      rw [List.pairwise_cons]
      refine ⟨?_, List.pairwise_cons.mpr h⟩
      intro z hz
      rcases List.mem_cons.mp hz with hz' | hz'
      · exact hz' ▸ le_of_not_lt hle
      · exact le_trans (h.1 z hz') (le_of_not_lt hle)

theorem sortDescByScore_pairwise (l : List TestSuggestion) :
    (sortDescByScore l).Pairwise
      (fun a b => b.priority_score ≤ a.priority_score) := by
  induction l with
  | nil => simp [sortDescByScore]
  | cons x xs ih => exact insertDesc_pairwise x _ ih

theorem insertDesc_filter (x : TestSuggestion) (l : List TestSuggestion)
    (q : Rat) :
    (insertDesc x l).filter (fun s => decide (s.priority_score = q)) =
      (x :: l).filter (fun s => decide (s.priority_score = q)) := by
  induction l with
  | nil => rfl
  | cons y ys ih =>
    unfold insertDesc
    split
    case isTrue hgt =>
      by_cases hx : x.priority_score = q
      · have hy : ¬ y.priority_score = q := by
          intro hy
          rw [hx] at hgt
          rw [hy] at hgt
          exact lt_irrefl q hgt
        simp only [List.filter_cons]
        simp [hx, hy, ih, List.filter_cons]
      · simp only [List.filter_cons]
        simp [hx, ih, List.filter_cons]
    case isFalse hle => rfl

theorem sortDescByScore_filter (l : List TestSuggestion) (q : Rat) :
    (sortDescByScore l).filter (fun s => decide (s.priority_score = q)) =
      l.filter (fun s => decide (s.priority_score = q)) := by
  induction l with
  | nil => rfl
  | cons x xs ih =>
    have h1 : sortDescByScore (x :: xs) = insertDesc x (sortDescByScore xs) := rfl
    rw [h1, insertDesc_filter]
    simp only [List.filter_cons]
    rw [ih]

theorem calculateCoverageImpact_mem (s : TestSuggestion) :
    0 ≤ calculateCoverageImpact s ∧ calculateCoverageImpact s ≤ 1 := by
  unfold calculateCoverageImpact
  constructor
  · exact le_min zero_le_one (le_max_left 0 _)
  · exact min_le_left _ _

theorem calculateInverseDifficulty_mem (s : TestSuggestion) :
    0 ≤ calculateInverseDifficulty s ∧ calculateInverseDifficulty s ≤ 1 := by
  unfold calculateInverseDifficulty
  cases s.difficulty <;> norm_num

theorem calculateDependencyScore_mem (s : TestSuggestion) :
    0 ≤ calculateDependencyScore s ∧ calculateDependencyScore s ≤ 1 := by
  unfold calculateDependencyScore
  have hpos : (0 : Rat) < 1 + (s.dependencies.length : Rat) := by positivity
  constructor
  · positivity
  · rw [div_le_one hpos]
    have := Nat.cast_nonneg (α := Rat) s.dependencies.length
    linarith

theorem calculatePriorityScore_mem (a b c : Rat) (ha : 0 ≤ a) (hb : 0 ≤ b)
    (hc : 0 ≤ c) (hsum : 0 < a + b + c) (s : TestSuggestion) :
    0 ≤ calculatePriorityScore (mkPrioritizer a b c) s ∧
      calculatePriorityScore (mkPrioritizer a b c) s ≤ 1 := by
  obtain ⟨i0, i1⟩ := calculateCoverageImpact_mem s
  obtain ⟨d0, d1⟩ := calculateInverseDifficulty_mem s
  obtain ⟨p0, p1⟩ := calculateDependencyScore_mem s
  unfold calculatePriorityScore mkPrioritizer
  rw [if_pos hsum]
  have hne : a + b + c ≠ 0 := ne_of_gt hsum
  have w1 : 0 ≤ a / (a + b + c) := div_nonneg ha hsum.le
  have w2 : 0 ≤ b / (a + b + c) := div_nonneg hb hsum.le
  have w3 : 0 ≤ c / (a + b + c) := div_nonneg hc hsum.le
  have hw : a / (a + b + c) + b / (a + b + c) + c / (a + b + c) = 1 := by
    field_simp
  constructor
  · have m1 := mul_nonneg w1 i0
    have m2 := mul_nonneg w2 d0
    have m3 := mul_nonneg w3 p0
    dsimp only
    linarith
  · have m1 := mul_le_mul_of_nonneg_left i1 w1
    have m2 := mul_le_mul_of_nonneg_left d1 w2
    have m3 := mul_le_mul_of_nonneg_left p1 w3
    dsimp only
    nlinarith

/-- C4 amended: for NONNEGATIVE weights with positive sum, prioritize
returns a permutation of its (score-annotated) input, sorted by
`priority_score` non-increasing, stable (filtering the output at any
score value returns exactly the input's elements of that score, in
input order), with every computed score in [0, 1].  The claim as
frozen admits negative weights, for which the bound fails
(`c4_counterexample`). -/
theorem c4_amended (a b c : Rat) (ha : 0 ≤ a) (hb : 0 ≤ b) (hc : 0 ≤ c)
    (hsum : 0 < a + b + c) (l : List TestSuggestion) :
    (prioritize (mkPrioritizer a b c) l).Perm
      (l.map fun s =>
        { s with priority_score :=
            calculatePriorityScore (mkPrioritizer a b c) s }) ∧
    (prioritize (mkPrioritizer a b c) l).Pairwise
      (fun s t => t.priority_score ≤ s.priority_score) ∧
    (∀ q : Rat,
      (prioritize (mkPrioritizer a b c) l).filter
          (fun s => decide (s.priority_score = q)) =
        (l.map fun s =>
          { s with priority_score :=
              calculatePriorityScore (mkPrioritizer a b c) s }).filter
          (fun s => decide (s.priority_score = q))) ∧
    (∀ s ∈ prioritize (mkPrioritizer a b c) l,
      0 ≤ s.priority_score ∧ s.priority_score ≤ 1) := by
  refine ⟨sortDescByScore_perm _, sortDescByScore_pairwise _,
    fun q => sortDescByScore_filter _ q, ?_⟩
  intro s hs
  obtain ⟨s0, _, rfl⟩ :=
    List.mem_map.mp ((sortDescByScore_perm _).subset hs)
  simpa using calculatePriorityScore_mem a b c ha hb hc hsum s0

/-- C4 witness: the amended statement applied to the default weight
triple (0.5, 0.3, 0.2) and the one-element suggestion list. -/
theorem c4_witness :
    (prioritize (mkPrioritizer (1 / 2) (3 / 10) (1 / 5)) [c4Suggestion]).Perm
      ([c4Suggestion].map fun s =>
        { s with priority_score :=
            calculatePriorityScore (mkPrioritizer (1 / 2) (3 / 10) (1 / 5)) s }) :=
  (c4_amended (1 / 2) (3 / 10) (1 / 5) (by norm_num) (by norm_num)
    (by norm_num) (by norm_num) [c4Suggestion]).1

theorem stepCg_crossInv (st : ParseLoopState) (l : List Char)
    (h : CrossCountsInv st) : CrossCountsInv (stepCg st l) := by
  unfold stepCg
  cases hm : cgMatch l with
  | none => exact h
  | some name =>
    constructor
    · intro cg hcg cr hcr
      rcases List.mem_append.mp hcg with h1 | h1
      · exact h.1 cg h1 cr hcr
      · exact h.2 cg (Option.mem_def.mp (Option.mem_toList.mp h1)) cr hcr
    · intro cg hcg cr hcr
      rw [Option.some_inj] at hcg
      rw [← hcg] at hcr
      simp at hcr

theorem stepCp_crossInv (st : ParseLoopState) (l : List Char)
    (h : CrossCountsInv st) : CrossCountsInv (stepCp st l) := by
  unfold stepCp
  cases hm : cpMatch l with
  | none => exact h
  | some name =>
    cases hcg0 : st.currentCg with
    | none => exact h
    | some cg0 =>
      refine ⟨h.1, ?_⟩
      intro cg hcg cr hcr
      rw [Option.some_inj] at hcg
      rw [← hcg] at hcr
      cases hcp0 : st.currentCp <;>
        · simp only [hcp0] at hcr
          exact h.2 cg0 hcg0 cr hcr

theorem stepBin_crossInv (st : ParseLoopState) (l : List Char)
    (h : CrossCountsInv st) : CrossCountsInv (stepBin st l) := by
  unfold stepBin
  cases hm : binMatch l with
  | none => exact h
  | some r =>
    cases hcp0 : st.currentCp with
    | none => exact h
    | some cp0 => exact ⟨h.1, h.2⟩

theorem stepLine_crossInv (st : ParseLoopState) (l : List Char)
    (h : CrossCountsInv st) : CrossCountsInv (stepLine st l) :=
  stepBin_crossInv _ l (stepCp_crossInv _ l (stepCg_crossInv st l h))

theorem crossStep_crossInv (st : ParseLoopState) (l : List Char)
    (rest : List (List Char)) (h : CrossCountsInv st) :
    CrossCountsInv (crossStep st l rest).1 := by
  unfold crossStep
  cases hm : crossMatch l with
  | none => exact h
  | some r =>
    cases hcg0 : st.currentCg with
    | none => exact h
    | some cg0 =>
      refine ⟨h.1, ?_⟩
      intro cg hcg cr hcr
      rw [Option.some_inj] at hcg
      rw [← hcg] at hcr
      simp only [] at hcr
      rcases List.mem_append.mp hcr with h1 | h1
      · exact h.2 cg0 hcg0 cr h1
      · rcases List.mem_singleton.mp h1 with rfl
        exact ⟨rfl, rfl⟩

theorem lastLineCpUpdate_crossInv (st : ParseLoopState)
    (h : CrossCountsInv st) : CrossCountsInv (lastLineCpUpdate st) := by
  unfold lastLineCpUpdate
  cases st.currentCp with
  | none => exact h
  | some cp => exact ⟨h.1, h.2⟩

theorem parseLoopF_crossInv (fuel : Nat) :
    ∀ (st : ParseLoopState) (lines : List (List Char)),
      CrossCountsInv st → CrossCountsInv (parseLoopF fuel st lines) := by
  induction fuel with
  | zero =>
    intro st lines h
    cases lines <;> exact h
  | succ f ih =>
    intro st lines h
    cases lines with
    | nil => exact h
    | cons l rest =>
      simp only [parseLoopF]
      apply ih
      have h2 := crossStep_crossInv (stepLine st l) l rest
        (stepLine_crossInv st l h)
      split
      · exact lastLineCpUpdate_crossInv _ h2
      · exact h2

theorem finalizeParse_crossInv (st : ParseLoopState)
    (h : CrossCountsInv st) :
    ∀ cg ∈ finalizeParse st, ∀ cr ∈ cg.cross_coverage,
      crossCountsOk cr := by
  unfold finalizeParse
  intro cg hcg cr hcr
  rcases hcp0 : st.currentCp with _ | cp0 <;>
    rcases hcg0 : st.currentCg with _ | cg0 <;>
      simp only [hcp0, hcg0] at hcg
  · exact h.1 cg hcg cr hcr
  · rcases List.mem_append.mp hcg with h1 | h1
    · exact h.1 cg h1 cr hcr
    · rcases List.mem_singleton.mp h1 with rfl
      simp only [] at hcr
      exact h.2 cg0 hcg0 cr hcr
  · exact h.1 cg hcg cr hcr
  · rcases List.mem_append.mp hcg with h1 | h1
    · exact h.1 cg h1 cr hcr
    · rcases List.mem_singleton.mp h1 with rfl
      simp only [] at hcr
      exact h.2 cg0 hcg0 cr hcr

/-- C9 amended: every parsed cross's `total_bins` and `covered_bins`
are computed from its own (absorbed) bin sequence — the number of bins
and the number of Covered bins — exactly as for a coverpoint; its
`coverage_percentage`, however, is taken verbatim from the Cross
header, not recomputed from the bins (`c9_counterexample`). -/
theorem c9_amended (lines : List (List Char)) :
    ∀ cg ∈ extractCovergroups lines, ∀ cr ∈ cg.cross_coverage,
      cr.total_bins = cr.bins.length ∧
      cr.covered_bins = countCovered cr.bins := by
  have h0 : CrossCountsInv ⟨[], none, none⟩ := by
    constructor
    · intro cg hcg
      simp at hcg
    · intro cg hcg
      simp at hcg
  exact finalizeParse_crossInv _
    (parseLoopF_crossInv lines.length ⟨[], none, none⟩ lines h0)

/-- C9 witness: the amended counters statement evaluated on the cross
parsed from `c9Input`. -/
theorem c9_witness :
    c9Cross.total_bins = c9Cross.bins.length ∧
    c9Cross.covered_bins = countCovered c9Cross.bins :=
  c9_amended (linesOf c9Input) c9Cg (by with_unfolding_all decide)
    c9Cross (by with_unfolding_all decide)

theorem absorbCross_no_headers (mid : List (List Char)) (hd : List Char)
    (t : List (List Char))
    (hmid : ∀ m ∈ mid, cgMatch m = none ∧ cpMatch m = none)
    (hhd : (cgMatch hd).isSome = true ∨ (cpMatch hd).isSome = true) :
    absorbCross (mid ++ hd :: t) = (crossBinsOf mid, hd :: t) := by
  induction mid with
  | nil =>
    have hc : ((cgMatch hd).isSome || (cpMatch hd).isSome) = true := by
      rcases hhd with h | h <;> simp [h]
    simp [absorbCross, hc, crossBinsOf]
  | cons m ms ih =>
    obtain ⟨hcg, hcp⟩ := hmid m (List.mem_cons_self m ms)
    have hrec := ih (fun m1 hm1 => hmid m1 (List.mem_cons_of_mem m hm1))
    simp only [List.cons_append, absorbCross, hcg, hcp, Option.isSome_none,
      Bool.or_self, Bool.false_eq_true, if_false, hrec, crossBinsOf,
      List.flatMap_cons]
    simp [hrec, crossBinsOf]

/-- C10: the cross-absorption lookahead stops only at the next
Covergroup or Coverpoint header, so when a second Cross header follows
a first one with no intervening Covergroup or Coverpoint header, the
second Cross line is consumed without creating a CrossCoverage, the Bin
lines after it are absorbed into the FIRST cross's bin list, and the
open covergroup gains exactly one CrossCoverage for the two headers;
parsing resumes at the stopping header. -/
theorem c10_second_cross_absorbed (st : ParseLoopState) (cg : Covergroup)
    (l c2 hd : List Char) (mid1 mid2 t : List (List Char)) (nm : String)
    (pct : Rat) (q : String × Rat)
    (hcross : crossMatch l = some (nm, pct))
    (hcg : (stepLine st l).currentCg = some cg)
    (hmid : ∀ m ∈ mid1 ++ c2 :: mid2, cgMatch m = none ∧ cpMatch m = none)
    (hc2 : crossMatch c2 = some q)
    (hhd : (cgMatch hd).isSome = true ∨ (cpMatch hd).isSome = true) :
    parseLoop st (l :: ((mid1 ++ c2 :: mid2) ++ hd :: t)) =
      parseLoop
        (withNewCross (stepLine st l) cg nm pct
          (crossBinsOf (mid1 ++ c2 :: mid2)))
        (hd :: t) ∧
    crossBinsOf (mid1 ++ c2 :: mid2) =
      crossBinsOf mid1 ++ crossBinsOf [c2] ++ crossBinsOf mid2 := by
  constructor
  · have habs := absorbCross_no_headers (mid1 ++ c2 :: mid2) hd t hmid hhd
    rw [parseLoop_cons]
    dsimp only
    unfold crossStep
    rw [hcross, hcg]
    dsimp only
    rw [habs]
    simp only [withNewCross, List.isEmpty_cons, Bool.false_eq_true, if_false]
  · simp [crossBinsOf]

/-- C10 witness: a covergroup followed by a cross header, a bin, a
SECOND cross header, another bin and a coverpoint header ends up with
one single CrossCoverage holding both bins. -/
theorem c10_witness :
    parseLoop ⟨[], some c10Cg, none⟩
      ("Cross: a x b - Coverage: 10%".toList ::
        ((["Bin: u - Hits: 0 - Status: uncovered".toList] ++
          "Cross: c x d - Coverage: 20%".toList ::
          ["Bin: v - Hits: 1 - Status: hit".toList]) ++
          "Coverpoint: tail".toList :: [])) =
      parseLoop
        (withNewCross
          (stepLine ⟨[], some c10Cg, none⟩
            "Cross: a x b - Coverage: 10%".toList)
          c10Cg "a x b" 10
          (crossBinsOf (["Bin: u - Hits: 0 - Status: uncovered".toList] ++
            "Cross: c x d - Coverage: 20%".toList ::
            ["Bin: v - Hits: 1 - Status: hit".toList])))
        ("Coverpoint: tail".toList :: []) :=
  (c10_second_cross_absorbed ⟨[], some c10Cg, none⟩ c10Cg
    "Cross: a x b - Coverage: 10%".toList
    "Cross: c x d - Coverage: 20%".toList
    "Coverpoint: tail".toList
    ["Bin: u - Hits: 0 - Status: uncovered".toList]
    ["Bin: v - Hits: 1 - Status: hit".toList]
    [] "a x b" 10 ("c x d", 20)
    (by with_unfolding_all decide) (by with_unfolding_all decide)
    (by decide) (by with_unfolding_all decide) (by decide)).1

end CoverageAnalyzer
